import Mathlib

/-!
Shallow embedding of the scoring-aggregation and score-sheet store of
`davefinster/rcj-go` (`api/store/cockroach/cockroach_store.go`), together
with theorems settling the specification claims about it.

Modelling conventions:
* `shopspring/decimal` values (SQL `DECIMAL` columns, per-sheet totals,
  averages) are modelled as rationals (`ℚ`); `decimal` arithmetic on the
  values occurring here is exact rational arithmetic.
* `decimal.Round(2)` rounds to two decimal places, half away from zero.
* the round trip `d.Round(2).Float64()` followed by
  `decimal.NewFromFloat` is the identity on the two-decimal value for all
  magnitudes occurring in score keeping (a two-decimal multiple below
  2^46 is the unique shortest decimal of its nearest float64), so the
  model keeps the rounded rational value for both.
* SQL inner joins on UUID primary keys are modelled with `List.find?`;
  rows of a query without `ORDER BY` are listed in base-table order,
  one admissible order for the nondeterministic one the store returns.
* `sort.SliceStable` is the unique stable sort for its (strict weak
  order) comparator, modelled by `List.insertionSort` with the reflexive
  complement of the comparator.
-/

namespace RcjGo

/-- Rounding of an exact rational to an integer, half away from zero, as
`shopspring/decimal` does in `Round`. -/
def roundHalfAwayFromZero (q : ℚ) : ℤ :=
  if 0 ≤ q then ⌊q + 1/2⌋ else ⌈q - 1/2⌉

/-- Model of `decimal.Round(2)`: round to two decimal places, half away
from zero. -/
def decimalRound2 (q : ℚ) : ℚ :=
  (roundHalfAwayFromZero (q * 100) : ℚ) / 100

/-! ### Rows of the base tables used by `FetchDanceLadders` -/

/-- Row of the `divisions` table (fields used by the ladder path). -/
structure DivisionRow where
  id : String
  name : String
  league : String
  competitionRounds : Int
  finalRounds : Int
deriving DecidableEq

/-- Row of the `institutions` table. -/
structure InstitutionRow where
  id : String
  name : String
deriving DecidableEq

/-- Row of the `teams` table (fields used by the ladder path). -/
structure TeamRow where
  id : String
  name : String
  institution : String
  division : String
deriving DecidableEq

/-- Row of the `score_sheets` table (fields used by the ladder path). -/
structure ScoreSheetRow where
  id : String
  team : String
  round : Int
deriving DecidableEq

/-- Row of the `score_sheet_sections` table (fields used by the ladder
path).  The `section` column is called `sectionId` here because `section`
is a reserved word in Lean. -/
structure SheetSectionRow where
  scoreSheet : String
  sectionId : String
  value : ℚ
deriving DecidableEq

/-- Row of the `score_sheet_template_sections` table (fields used by the
ladder path). -/
structure TemplateSectionRow where
  id : String
  multiplier : Int
deriving DecidableEq

/-- The slice of the relational store read by `FetchDanceLadders`. -/
structure LadderDB where
  divisions : List DivisionRow
  institutions : List InstitutionRow
  teams : List TeamRow
  scoreSheets : List ScoreSheetRow
  sheetSections : List SheetSectionRow
  templateSections : List TemplateSectionRow
deriving DecidableEq

/-- One row of the `ladderTeam` query in `FetchDanceLadders`: `teams`
joined to `institutions` and `divisions`, filtered to
`divisions.league = 'On Stage'`. -/
structure LadderTeamRow where
  id : String
  name : String
  institutionId : String
  institution : String
  divisionId : String
  division : String
  competitionRounds : Int
  finalRounds : Int
deriving DecidableEq

/-- The teams query of `FetchDanceLadders` (`teams` ⋈ `institutions` ⋈
`divisions`, `WHERE divisions.league = 'On Stage'`).  The foreign keys
`teams.institution` and `teams.division` are `NOT NULL REFERENCES`
columns, so on a store satisfying the schema the two `find?` lookups
succeed and the inner join keeps every team of an On Stage division. -/
def ladderTeamRows (db : LadderDB) : List LadderTeamRow :=
  db.teams.filterMap fun t =>
    match db.institutions.find? (fun i => i.id == t.institution),
          db.divisions.find? (fun d => d.id == t.division) with
    | some i, some d =>
      if d.league == "On Stage" then
        some { id := t.id, name := t.name, institutionId := i.id,
               institution := i.name, divisionId := d.id, division := d.name,
               competitionRounds := d.competitionRounds,
               finalRounds := d.finalRounds }
      else none
    | _, _ => none

/-- The `value * multiplier` products of one sheet's section rows joined
to their template sections (the inner score query before `SUM`). -/
def joinedSectionValues (db : LadderDB) (sheetId : String) : List ℚ :=
  (db.sheetSections.filter (fun s => s.scoreSheet == sheetId)).filterMap
    fun s => (db.templateSections.find? (fun t => t.id == s.sectionId)).map
      fun t => s.value * (t.multiplier : ℚ)

/-- Per-sheet total of the inner score query:
`SUM(score_sheet_sections.value * score_sheet_template_sections.multiplier)`
grouped by sheet id. -/
def sheetTotal (db : LadderDB) (sheetId : String) : ℚ :=
  (joinedSectionValues db sheetId).sum

/-- One output row of the outer score query: a `(team, round)` group with
its exact SQL average of per-sheet totals and its sheet count. -/
structure ScoreCalcRow where
  team : String
  round : Int
  average : ℚ
  count : Int
deriving DecidableEq

/-- Sheets of a `(team, round)` group that appear in the inner query: a
sheet joins in only if it has at least one section row (with its template
section resolvable). -/
def groupSheets (db : LadderDB) (teamId : String) (round : Int) : List ScoreSheetRow :=
  db.scoreSheets.filter fun sh =>
    sh.team == teamId && sh.round == round && !(joinedSectionValues db sh.id).isEmpty

/-- Group keys `(team, round)` of the outer score query, one admissible
`GROUP BY` order. -/
def scoreGroupKeys (db : LadderDB) : List (String × Int) :=
  ((db.scoreSheets.filter (fun sh => !(joinedSectionValues db sh.id).isEmpty)).map
    (fun sh => (sh.team, sh.round))).dedup

/-- The outer score query of `FetchDanceLadders`: per `(team, round)`,
`AVG(t1.total)` (exact in SQL `DECIMAL` arithmetic) and `count(*)`. -/
def scoreCalcRows (db : LadderDB) : List ScoreCalcRow :=
  (scoreGroupKeys db).map fun k =>
    let g := groupSheets db k.1 k.2
    { team := k.1, round := k.2,
      average := (g.map (fun sh => sheetTotal db sh.id)).sum / (g.length : ℚ),
      count := (g.length : Int) }

/-! ### Ladder entries -/

/-- A `DivisionLadder_LadderEntry_RoundAverage` protobuf value.  Its
`average` field holds the value of `score.Average.Round(2).Float64()`. -/
structure RoundAverage where
  round : Int
  average : ℚ
  count : Int
deriving DecidableEq

/-- Team data carried in a ladder entry. -/
structure PbTeam where
  id : String
  name : String
  institutionId : String
  institutionName : String
  division : String
deriving DecidableEq

/-- A `DivisionLadder_LadderEntry` protobuf value.  The decimal values
behind the reported float fields are kept as rationals. -/
structure LadderEntry where
  team : PbTeam
  rounds : List RoundAverage
  interviewScore : ℚ
  bestRound : ℚ
  bestFinal : ℚ
  roundTotal : ℚ
  finalTotal : ℚ
deriving DecidableEq

/-- The `scoreMap` lookup for one team: its score rows in query order,
each average passed through `Round(2).Float64()` (and re-read with
`decimal.NewFromFloat`, an identity round trip on the rounded value). -/
def teamRoundAverages (scores : List ScoreCalcRow) (teamId : String) : List RoundAverage :=
  (scores.filter (fun s => s.team == teamId)).map fun s =>
    { round := s.round, average := decimalRound2 s.average, count := s.count }

/-- Accumulator of the per-entry aggregation loop of
`FetchDanceLadders`. -/
structure Agg where
  interviewScore : ℚ
  bestRound : ℚ
  bestFinal : ℚ
deriving DecidableEq

/-- One step of the aggregation loop: round 0 is added to the interview
score; rounds up to `competitionRounds` contend for `bestRound` under a
strict `GreaterThan`; all later rounds contend for `bestFinal` (the
code's third guard `round > competitionRounds` is implied by the failed
second guard). -/
def aggStep (competitionRounds : Int) (acc : Agg) (s : RoundAverage) : Agg :=
  if s.round == 0 then
    { acc with interviewScore := acc.interviewScore + s.average }
  else if s.round ≤ competitionRounds then
    { acc with bestRound := if acc.bestRound < s.average then s.average else acc.bestRound }
  else
    { acc with bestFinal := if acc.bestFinal < s.average then s.average else acc.bestFinal }

/-- Ladder entry built by `FetchDanceLadders` for one team: the
aggregation loop starting from zero decimals, then
`roundTotal = interviewScore + bestRound` and
`finalTotal = interviewScore + bestFinal` guarded by `bestFinal > 0`. -/
def mkLadderEntry (competitionRounds : Int) (team : PbTeam)
    (scoreList : List RoundAverage) : LadderEntry :=
  let agg := scoreList.foldl (aggStep competitionRounds) ⟨0, 0, 0⟩
  { team := team
    rounds := scoreList
    interviewScore := agg.interviewScore
    bestRound := agg.bestRound
    bestFinal := agg.bestFinal
    roundTotal := agg.interviewScore + agg.bestRound
    finalTotal := if 0 < agg.bestFinal then agg.interviewScore + agg.bestFinal else 0 }

/-- The comparison closure passed to `sort.SliceStable` in
`FetchDanceLadders`. -/
def ladderLess (a b : LadderEntry) : Bool :=
  if a.finalTotal < b.finalTotal then true
  else if b.finalTotal < a.finalTotal then false
  else if a.roundTotal < b.roundTotal then true
  else if b.roundTotal < a.roundTotal then false
  else a.team.name < b.team.name

/-- Non-strict ordering induced by the ladder comparator: `a` may come
before `b` when the comparator does not order `b` strictly before `a`. -/
def ladderSortRel (a b : LadderEntry) : Prop := ladderLess b a = false

instance : DecidableRel ladderSortRel := fun a b =>
  inferInstanceAs (Decidable (_ = false))

/-- Model of `sort.SliceStable(ladder, less)`: the stable sort for the
comparator, realised as insertion sort with the reflexive complement of
`ladderLess` (for a strict weak order comparator the stable sort is
unique, so this is the list the Go sort produces). -/
def sortLadder (l : List LadderEntry) : List LadderEntry :=
  l.insertionSort ladderSortRel

/-- Ladder entries of one division, in teams-query order, before
sorting. -/
def ladderEntriesForDivision (db : LadderDB) (scores : List ScoreCalcRow)
    (divId : String) : List LadderEntry :=
  ((ladderTeamRows db).filter (fun t => t.divisionId == divId)).map fun t =>
    mkLadderEntry t.competitionRounds
      { id := t.id, name := t.name, institutionId := t.institutionId,
        institutionName := t.institution, division := t.divisionId }
      (teamRoundAverages scores t.id)

/-- A `DivisionLadder` protobuf value. -/
structure DivisionLadder where
  divisionId : String
  divisionName : String
  competitionRounds : Int
  finalRounds : Int
  ladder : List LadderEntry
deriving DecidableEq

/-- Model of `FetchDanceLadders`.  The `showAll` argument is the Go
function's parameter.  Division ladders are emitted in first-seen order
of the teams query, one admissible order for the nondeterministic Go map
iteration of `ladderMap`; each division's ladder is its entries sorted by
`sort.SliceStable` with `ladderLess`. -/
def FetchDanceLadders (db : LadderDB) (showAll : Bool) : List DivisionLadder :=
  let rows := ladderTeamRows db
  let scores := scoreCalcRows db
  ((rows.map (fun t => t.divisionId)).dedup).filterMap fun divId =>
    (rows.find? (fun t => t.divisionId == divId)).map fun t0 =>
      { divisionId := divId, divisionName := t0.division,
        competitionRounds := t0.competitionRounds,
        finalRounds := t0.finalRounds,
        ladder := sortLadder (ladderEntriesForDivision db scores divId) }

/-! ### Score sheet repository (Fetch / Create / Update)

Errors are modelled by an inductive type: `sqlNoRows` is `sql.ErrNoRows`
(returned by `Get` when a query yields no row), `fetchWrapped` is the
`errors.New("Error fetching: %+v")` wrapping in `FetchScoreSheet`,
`statementFailed` is an injected failure of a named SQL statement, and a
caller-supplied mutator may return any error value of the type, which the
code propagates verbatim.  `crdb.ExecuteTxx` commits when the closure
returns `nil` and rolls the transaction back (leaving the store
unchanged) when it returns an error, returning that error. -/

/-- Error values of the store operations. -/
inductive StoreError where
  | sqlNoRows : StoreError
  | fetchWrapped : StoreError → StoreError
  | statementFailed : String → StoreError
  | handlerFailed : String → StoreError
deriving DecidableEq

/-- Row of the `score_sheets` table.  UUIDs generated by the store are
modelled as consecutive naturals; `created_at` is filled from the store
clock by the column default on insert; the JSONB `timings` round-trips
through `json.Marshal`/`Unmarshal` unchanged and is kept structured. -/
structure DbScoreSheetRow where
  id : Nat
  division : String
  team : String
  template : String
  timings : List (String × String)
  comments : String
  round : Int
  author : String
  createdAt : Nat
deriving DecidableEq

/-- Row of the `score_sheet_sections` table as seen by the repository
operations. -/
structure DbScoreSheetSectionRow where
  id : Nat
  sectionId : String
  value : ℚ
  scoreSheet : Nat
deriving DecidableEq

/-- Row of `score_sheet_template_sections` as used by the section query
of `FetchScoreSheet` (join target supplying `display_order`). -/
structure SheetTemplateSectionRow where
  id : String
  displayOrder : Int
deriving DecidableEq

/-- The slice of the store read and written by the score sheet
repository, plus the id generator and the clock. -/
structure SheetStore where
  scoreSheets : List DbScoreSheetRow
  scoreSheetSections : List DbScoreSheetSectionRow
  templateSections : List SheetTemplateSectionRow
  nextSheetId : Nat
  nextSectionId : Nat
  now : Nat
deriving DecidableEq

/-- A `ScoreSheetSection` protobuf value: the persisted row id, the
template section reference and the value. -/
structure PbScoreSheetSection where
  id : Nat
  sectionId : String
  value : ℚ
deriving DecidableEq

/-- A `ScoreSheet` protobuf value (fields the repository reads and
writes). -/
structure PbScoreSheet where
  id : Nat
  scoreSheetTemplateId : String
  comments : String
  round : Int
  teamId : String
  authorId : String
  divisionId : String
  timings : List (String × String)
  sections : List PbScoreSheetSection
deriving DecidableEq

/-- The zero-valued `&rcjpb.ScoreSheet{}` handed to the `CreateScoreSheet`
mutator. -/
def emptyPbScoreSheet : PbScoreSheet :=
  { id := 0, scoreSheetTemplateId := "", comments := "", round := 0,
    teamId := "", authorId := "", divisionId := "", timings := [], sections := [] }

/-- The header query of `FetchScoreSheet` (`Get` on `score_sheets` joined
to templates, teams, institutions and users by its `NOT NULL` foreign
keys, which the schema guarantees resolve): the sheet row when present,
`sql.ErrNoRows` otherwise. -/
def headerQuery (st : SheetStore) (sheetId : Nat) : Except StoreError DbScoreSheetRow :=
  match st.scoreSheets.find? (fun r => r.id == sheetId) with
  | some r => .ok r
  | none => .error .sqlNoRows

/-- The sections query of `FetchScoreSheet`: the sheet's section rows
joined to their template sections, ordered by `display_order` (stable on
ties, one admissible order for the SQL `ORDER BY`). -/
def sectionsQueryRows (st : SheetStore) (sheetId : Nat) : List PbScoreSheetSection :=
  ((((st.scoreSheetSections.filter (fun r => r.scoreSheet == sheetId)).filterMap
      fun r => (st.templateSections.find? (fun t => t.id == r.sectionId)).map
        fun t => (t.displayOrder,
          ({ id := r.id, sectionId := r.sectionId, value := r.value } : PbScoreSheetSection)))
    ).insertionSort fun a b => a.1 ≤ b.1).map (fun p => p.2)

/-- Failure injection for the two concurrent queries of
`FetchScoreSheet`. -/
structure QueryFailures where
  headerFails : Bool
  sectionsFails : Bool
deriving DecidableEq

/-- Composite sheet assembled from the header row and section rows. -/
def compositeSheet (r : DbScoreSheetRow) (secs : List PbScoreSheetSection) : PbScoreSheet :=
  { id := r.id, scoreSheetTemplateId := r.template, comments := r.comments,
    round := r.round, teamId := r.team, authorId := r.author,
    divisionId := r.division, timings := r.timings, sections := secs }

/-- Model of `FetchScoreSheet` with its `errgroup` fan-out made explicit:
the header task and the sections task each produce a result or an error
(injected statement failures stand for I/O errors); `group.Wait` waits
for both and keeps the error of the task that failed first
(`headerFinishesFirst` is the schedule when both fail), which the
function wraps in `Error fetching: %+v`.  Only when both tasks succeed is
the composite sheet built and returned; the `scoreSheet == nil` branch of
the Go code is unreachable because `Get` errors on an empty result. -/
def fetchScoreSheetWith (st : SheetStore) (sheetId : Nat) (fail : QueryFailures)
    (headerFinishesFirst : Bool) : Except StoreError PbScoreSheet :=
  let hres : Except StoreError DbScoreSheetRow :=
    if fail.headerFails then .error (.statementFailed "select score_sheets")
    else headerQuery st sheetId
  let sres : Except StoreError (List PbScoreSheetSection) :=
    if fail.sectionsFails then .error (.statementFailed "select score_sheet_sections")
    else .ok (sectionsQueryRows st sheetId)
  match hres, sres with
  | .error eh, .error es => .error (.fetchWrapped (if headerFinishesFirst then eh else es))
  | .error eh, .ok _ => .error (.fetchWrapped eh)
  | .ok _, .error es => .error (.fetchWrapped es)
  | .ok r, .ok secs => .ok (compositeSheet r secs)

/-- `FetchScoreSheet` without injected query failures, as invoked by
`CreateScoreSheet` and `UpdateScoreSheet`. -/
def FetchScoreSheet (st : SheetStore) (sheetId : Nat) : Except StoreError PbScoreSheet :=
  fetchScoreSheetWith st sheetId ⟨false, false⟩ true

/-- Insert of the header row in `CreateScoreSheet` (`RETURNING id` gives
the fresh id; `created_at` comes from the column default). -/
def insertSheetHeader (st : SheetStore) (sheet : PbScoreSheet) : SheetStore × Nat :=
  let newId := st.nextSheetId
  ({ st with
      scoreSheets := st.scoreSheets ++
        [{ id := newId, division := sheet.divisionId, team := sheet.teamId,
           template := sheet.scoreSheetTemplateId, timings := sheet.timings,
           comments := sheet.comments, round := sheet.round,
           author := sheet.authorId, createdAt := st.now }],
      nextSheetId := st.nextSheetId + 1 }, newId)

/-- Bulk insert of the section rows in `CreateScoreSheet`: one row per
section of the mutated sheet, referencing the fresh sheet id. -/
def insertSectionRows (st : SheetStore) (sheetId : Nat)
    (secs : List PbScoreSheetSection) : SheetStore :=
  secs.foldl (fun s sec =>
    { s with
        scoreSheetSections := s.scoreSheetSections ++
          [{ id := s.nextSectionId, sectionId := sec.sectionId,
             value := sec.value, scoreSheet := sheetId }],
        nextSectionId := s.nextSectionId + 1 }) st

/-- Failure injection for the two insert statements of
`CreateScoreSheet`. -/
structure CreateFailures where
  headerInsertFails : Bool
  sectionInsertFails : Bool
deriving DecidableEq

/-- The transaction closure of `CreateScoreSheet`: run the mutator on a
zero sheet, insert the header, then bulk-insert the sections.  When the
mutated sheet has no sections, squirrel's `ToSql` reports an error that
the code discards with `_`, leaving an empty SQL string; executing the
empty statement is a no-op success (PostgreSQL answers an empty query
with `EmptyQueryResponse`, which `lib/pq` does not treat as an error), so
the closure still commits. -/
def createScoreSheetTx (st : SheetStore)
    (handler : PbScoreSheet → Except StoreError PbScoreSheet)
    (fail : CreateFailures) : Except StoreError (SheetStore × Nat) :=
  match handler emptyPbScoreSheet with
  | .error e => .error e
  | .ok sheet =>
    if fail.headerInsertFails then .error (.statementFailed "insert score_sheets")
    else
      let ins := insertSheetHeader st sheet
      if sheet.sections.isEmpty then .ok ins
      else if fail.sectionInsertFails then .error (.statementFailed "insert score_sheet_sections")
      else .ok (insertSectionRows ins.1 ins.2 sheet.sections, ins.2)

/-- Model of `CreateScoreSheet`: the closure runs under
`crdb.ExecuteTxx`; an error rolls the whole transaction back and is
returned with the store unchanged, success commits and the sheet is
re-fetched from the store by its fresh id. -/
def CreateScoreSheet (st : SheetStore)
    (handler : PbScoreSheet → Except StoreError PbScoreSheet)
    (fail : CreateFailures) : SheetStore × Except StoreError PbScoreSheet :=
  match createScoreSheetTx st handler fail with
  | .error e => (st, .error e)
  | .ok (st1, newId) => (st1, FetchScoreSheet st1 newId)

/-- The header `UPDATE` of `UpdateScoreSheet`: only `team`, `timings` and
`comments` are in the `SetMap`, keyed by sheet id. -/
def updateSheetHeaderRow (st : SheetStore) (sheetId : Nat) (sheet : PbScoreSheet) : SheetStore :=
  { st with
      scoreSheets := st.scoreSheets.map fun r =>
        if r.id == sheetId then
          { r with team := sheet.teamId, timings := sheet.timings, comments := sheet.comments }
        else r }

/-- One per-section `UPDATE` of `UpdateScoreSheet`: set `value` on the
section row addressed by its row id. -/
def updateSectionValue (st : SheetStore) (rowId : Nat) (value : ℚ) : SheetStore :=
  { st with
      scoreSheetSections := st.scoreSheetSections.map fun r =>
        if r.id == rowId then { r with value := value } else r }

/-- The transaction closure of `UpdateScoreSheet`: fetch the current
sheet inside the transaction, run the mutator on it, write back the
mutable header fields, then update each section value in place by row
id. -/
def updateScoreSheetTx (st : SheetStore) (sheetId : Nat)
    (handler : PbScoreSheet → Except StoreError PbScoreSheet) :
    Except StoreError SheetStore :=
  match FetchScoreSheet st sheetId with
  | .error e => .error e
  | .ok sheet =>
    match handler sheet with
    | .error e => .error e
    | .ok sheet1 =>
      let st1 := updateSheetHeaderRow st sheetId sheet1
      .ok (sheet1.sections.foldl (fun s sec => updateSectionValue s sec.id sec.value) st1)

/-- Model of `UpdateScoreSheet`: the closure runs under
`crdb.ExecuteTxx`; an error rolls the transaction back and is returned
verbatim with the store unchanged, success commits and the sheet is
re-fetched by its id. -/
def UpdateScoreSheet (st : SheetStore) (sheetId : Nat)
    (handler : PbScoreSheet → Except StoreError PbScoreSheet) :
    SheetStore × Except StoreError PbScoreSheet :=
  match updateScoreSheetTx st sheetId handler with
  | .error e => (st, .error e)
  | .ok st1 => (st1, FetchScoreSheet st1 sheetId)

/-- Freshness of the id generator: every persisted row has an id below
the generator, so a fresh id matches no existing row. -/
def SheetStore.Fresh (st : SheetStore) : Prop :=
  (∀ r ∈ st.scoreSheets, r.id < st.nextSheetId) ∧
  (∀ r ∈ st.scoreSheetSections, r.scoreSheet < st.nextSheetId)

instance (st : SheetStore) : Decidable st.Fresh := by
  unfold SheetStore.Fresh; infer_instance

/-! ### Helper lemmas on the aggregation loop -/

theorem ite_lt_eq_max (a b : ℚ) : (if a < b then b else a) = max a b := by
  rcases le_or_lt b a with h | h
  · rw [if_neg (not_lt.mpr h), max_eq_left h]
  · rw [if_pos h, max_eq_right h.le]

/-- Closed form of the aggregation loop: the fold partitions the score
rows by the code's three guards and computes an interview sum and two
running maxima. -/
theorem agg_foldl (N : Int) (l : List RoundAverage) (acc : Agg) :
    l.foldl (aggStep N) acc =
      { interviewScore := acc.interviewScore +
          ((l.filter (fun s => s.round == 0)).map (fun s => s.average)).sum,
        bestRound :=
          ((l.filter (fun s => !(s.round == 0) && decide (s.round ≤ N))).map
            (fun s => s.average)).foldl max acc.bestRound,
        bestFinal :=
          ((l.filter (fun s => !(s.round == 0) && !(decide (s.round ≤ N)))).map
            (fun s => s.average)).foldl max acc.bestFinal } := by
  induction l generalizing acc with
  | nil => simp
  | cons s t ih =>
    rw [List.foldl_cons, ih]
    by_cases h0 : s.round = 0
    · simp [aggStep, h0, add_assoc]
    · by_cases hN : s.round ≤ N
      · simp [aggStep, h0, hN, ite_lt_eq_max]
      · simp [aggStep, h0, hN, ite_lt_eq_max]

theorem le_foldl_max (l : List ℚ) (init : ℚ) : init ≤ l.foldl max init := by
  induction l generalizing init with
  | nil => exact le_refl _
  | cons a t ih => exact le_trans (le_max_left _ _) (ih (max init a))

theorem mem_le_foldl_max {l : List ℚ} {a : ℚ} (h : a ∈ l) (init : ℚ) :
    a ≤ l.foldl max init := by
  induction l generalizing init with
  | nil => cases h
  | cons b t ih =>
    rcases List.mem_cons.mp h with rfl | h1
    · exact le_trans (le_max_right init a) (le_foldl_max t (max init a))
    · exact ih h1 (max init b)

theorem foldl_max_mem_or_init (l : List ℚ) (init : ℚ) :
    l.foldl max init ∈ l ∨ l.foldl max init = init := by
  induction l generalizing init with
  | nil => right; rfl
  | cons a t ih =>
    rw [List.foldl_cons]
    rcases ih (max init a) with h | h
    · left; exact List.mem_cons_of_mem a h
    · rcases le_total init a with hle | hle
      · left; rw [h, max_eq_right hle]; exact List.mem_cons_self a t
      · right; rw [h, max_eq_left hle]

theorem foldl_max_zero_mem {l : List ℚ} (h : l ≠ []) (hpos : ∀ a ∈ l, 0 ≤ a) :
    l.foldl max 0 ∈ l := by
  rcases foldl_max_mem_or_init l 0 with hm | hz
  · exact hm
  · match l, h with
    | a :: t, _ =>
      have ha : a ≤ 0 := by
        have := mem_le_foldl_max (List.mem_cons_self a t) (0 : ℚ)
        rwa [hz] at this
      have : a = 0 := le_antisymm ha (hpos a (List.mem_cons_self a t))
      rw [hz, ← this]
      exact List.mem_cons_self a t

/-! ### Claim C2 -/

/-- Claim C2: for every team in a division with `competition_rounds = N`
(nonnegative, per the data model), given the team's per-round averages
(each with nonnegative round number and nonnegative average), the derived
fields of its ladder entry satisfy: `interviewScore` is the sum of the
averages with round 0; `bestRound` is the maximum average over rounds
`1..N` (0 if there are none); `bestFinal` is the maximum average over
rounds `> N` (0 if there are none); `roundTotal = interview + bestRound`;
`finalTotal = interview + bestFinal` when `bestFinal > 0` and 0
otherwise.  A team with no score rows gets the all-zero entry, and every
team of the division appears in the emitted ladder. -/
theorem C2_ladder_derived_fields (N : Int) (team : PbTeam)
    (scoreList : List RoundAverage) (hN0 : 0 ≤ N)
    (hr : ∀ s ∈ scoreList, 0 ≤ s.round) (ha : ∀ s ∈ scoreList, 0 ≤ s.average) :
    ((mkLadderEntry N team scoreList).interviewScore =
        ((scoreList.filter (fun s => s.round == 0)).map (fun s => s.average)).sum) ∧
    ((scoreList.filter fun s => decide (1 ≤ s.round) && decide (s.round ≤ N)) = [] →
        (mkLadderEntry N team scoreList).bestRound = 0) ∧
    ((scoreList.filter fun s => decide (1 ≤ s.round) && decide (s.round ≤ N)) ≠ [] →
        (mkLadderEntry N team scoreList).bestRound ∈
          ((scoreList.filter fun s => decide (1 ≤ s.round) && decide (s.round ≤ N)).map
            fun s => s.average) ∧
        ∀ a ∈ ((scoreList.filter fun s => decide (1 ≤ s.round) && decide (s.round ≤ N)).map
            fun s => s.average), a ≤ (mkLadderEntry N team scoreList).bestRound) ∧
    ((scoreList.filter fun s => decide (N < s.round)) = [] →
        (mkLadderEntry N team scoreList).bestFinal = 0) ∧
    ((scoreList.filter fun s => decide (N < s.round)) ≠ [] →
        (mkLadderEntry N team scoreList).bestFinal ∈
          ((scoreList.filter fun s => decide (N < s.round)).map fun s => s.average) ∧
        ∀ a ∈ ((scoreList.filter fun s => decide (N < s.round)).map fun s => s.average),
          a ≤ (mkLadderEntry N team scoreList).bestFinal) ∧
    ((mkLadderEntry N team scoreList).roundTotal =
        (mkLadderEntry N team scoreList).interviewScore +
          (mkLadderEntry N team scoreList).bestRound) ∧
    (0 < (mkLadderEntry N team scoreList).bestFinal →
        (mkLadderEntry N team scoreList).finalTotal =
          (mkLadderEntry N team scoreList).interviewScore +
            (mkLadderEntry N team scoreList).bestFinal) ∧
    (¬ 0 < (mkLadderEntry N team scoreList).bestFinal →
        (mkLadderEntry N team scoreList).finalTotal = 0) ∧
    (mkLadderEntry N team [] =
      { team := team, rounds := [], interviewScore := 0, bestRound := 0,
        bestFinal := 0, roundTotal := 0, finalTotal := 0 }) ∧
    (∀ (db : LadderDB) (scores : List ScoreCalcRow) (divId : String),
      (sortLadder (ladderEntriesForDivision db scores divId)).length =
        ((ladderTeamRows db).filter fun t => t.divisionId == divId).length) := by
  have hAgg := agg_foldl N scoreList ⟨0, 0, 0⟩
  have hfiltR : scoreList.filter (fun s => !(s.round == 0) && decide (s.round ≤ N))
      = scoreList.filter (fun s => decide (1 ≤ s.round) && decide (s.round ≤ N)) := by
    apply List.filter_congr
    intro s hs
    have h0 := hr s hs
    by_cases hz : s.round = 0
    · have h1 : ¬ (1 ≤ s.round) := by omega
      simp [hz, h1]
    · have h1 : 1 ≤ s.round := by omega
      simp [hz, h1]
  have hfiltF : scoreList.filter (fun s => !(s.round == 0) && !(decide (s.round ≤ N)))
      = scoreList.filter (fun s => decide (N < s.round)) := by
    apply List.filter_congr
    intro s hs
    have h0 := hr s hs
    by_cases hle : s.round ≤ N
    · have h1 : ¬ (N < s.round) := by omega
      simp [hle, h1]
    · have h1 : N < s.round := by omega
      have hz : ¬ s.round = 0 := by omega
      simp [hle, h1, hz]
  have hI : (mkLadderEntry N team scoreList).interviewScore =
      ((scoreList.filter (fun s => s.round == 0)).map (fun s => s.average)).sum := by
    show (scoreList.foldl (aggStep N) ⟨0, 0, 0⟩).interviewScore = _
    rw [hAgg]
    simp
  have hBR : (mkLadderEntry N team scoreList).bestRound =
      ((scoreList.filter fun s => decide (1 ≤ s.round) && decide (s.round ≤ N)).map
        (fun s => s.average)).foldl max 0 := by
    show (scoreList.foldl (aggStep N) ⟨0, 0, 0⟩).bestRound = _
    rw [hAgg, hfiltR]
  have hBF : (mkLadderEntry N team scoreList).bestFinal =
      ((scoreList.filter fun s => decide (N < s.round)).map
        (fun s => s.average)).foldl max 0 := by
    show (scoreList.foldl (aggStep N) ⟨0, 0, 0⟩).bestFinal = _
    rw [hAgg, hfiltF]
  refine ⟨hI, ?_, ?_, ?_, ?_, rfl, ?_, ?_, by simp [mkLadderEntry], ?_⟩
  · intro h
    rw [hBR, h]
    rfl
  · intro h
    have hpos : ∀ a ∈ ((scoreList.filter fun s => decide (1 ≤ s.round) &&
        decide (s.round ≤ N)).map fun s => s.average), 0 ≤ a := by
      intro a hma
      obtain ⟨s, hs, rfl⟩ := List.mem_map.mp hma
      exact ha s (List.mem_of_mem_filter hs)
    have hne : ((scoreList.filter fun s => decide (1 ≤ s.round) &&
        decide (s.round ≤ N)).map fun s => s.average) ≠ [] := by
      simp only [ne_eq, List.map_eq_nil_iff]
      exact h
    constructor
    · rw [hBR]; exact foldl_max_zero_mem hne hpos
    · intro a hma
      rw [hBR]; exact mem_le_foldl_max hma 0
  · intro h
    rw [hBF, h]
    rfl
  · intro h
    have hpos : ∀ a ∈ ((scoreList.filter fun s => decide (N < s.round)).map
        fun s => s.average), 0 ≤ a := by
      intro a hma
      obtain ⟨s, hs, rfl⟩ := List.mem_map.mp hma
      exact ha s (List.mem_of_mem_filter hs)
    have hne : ((scoreList.filter fun s => decide (N < s.round)).map
        fun s => s.average) ≠ [] := by
      simp only [ne_eq, List.map_eq_nil_iff]
      exact h
    constructor
    · rw [hBF]; exact foldl_max_zero_mem hne hpos
    · intro a hma
      rw [hBF]; exact mem_le_foldl_max hma 0
  · intro h
    have h1 : 0 < (scoreList.foldl (aggStep N) ⟨0, 0, 0⟩).bestFinal := h
    show (if 0 < (scoreList.foldl (aggStep N) ⟨0, 0, 0⟩).bestFinal then _ else _) = _
    rw [if_pos h1]
    rfl
  · intro h
    have h1 : ¬ 0 < (scoreList.foldl (aggStep N) ⟨0, 0, 0⟩).bestFinal := h
    show (if 0 < (scoreList.foldl (aggStep N) ⟨0, 0, 0⟩).bestFinal then _ else _) = _
    rw [if_neg h1]
  · intro db scores divId
    simp [sortLadder, ladderEntriesForDivision]

/-! ### The sort keys of the ladder comparator -/

/-- Two ladder entries tied on all three sort keys. -/
def keyTied (a b : LadderEntry) : Prop :=
  a.finalTotal = b.finalTotal ∧ a.roundTotal = b.roundTotal ∧
    a.team.name = b.team.name

/-- Lexicographic less-or-equal on the three sort keys. -/
def keyLE (a b : LadderEntry) : Prop :=
  a.finalTotal < b.finalTotal ∨ (a.finalTotal = b.finalTotal ∧
    (a.roundTotal < b.roundTotal ∨ (a.roundTotal = b.roundTotal ∧
      a.team.name ≤ b.team.name)))

theorem keyTied_symm {a b : LadderEntry} (h : keyTied a b) : keyTied b a :=
  ⟨h.1.symm, h.2.1.symm, h.2.2.symm⟩

instance (a b : LadderEntry) : Decidable (keyTied a b) := by
  unfold keyTied
  infer_instance

theorem keyTied_keyLE {a b : LadderEntry} (h : keyTied a b) : keyLE a b :=
  Or.inr ⟨h.1, Or.inr ⟨h.2.1, le_of_eq h.2.2⟩⟩

/-- The comparator returns true exactly on strict lexicographic order of
the three keys. -/
theorem ladderLess_iff (a b : LadderEntry) :
    ladderLess a b = true ↔
      a.finalTotal < b.finalTotal ∨ (a.finalTotal = b.finalTotal ∧
        (a.roundTotal < b.roundTotal ∨ (a.roundTotal = b.roundTotal ∧
          a.team.name < b.team.name))) := by
  unfold ladderLess
  rcases lt_trichotomy a.finalTotal b.finalTotal with hf | hf | hf
  · rw [if_pos hf]
    simp [hf]
  · rw [if_neg (by rw [hf]; exact lt_irrefl _), if_neg (by rw [hf]; exact lt_irrefl _)]
    rcases lt_trichotomy a.roundTotal b.roundTotal with hro | hro | hro
    · rw [if_pos hro]
      simp [hf, hro]
    · rw [if_neg (by rw [hro]; exact lt_irrefl _), if_neg (by rw [hro]; exact lt_irrefl _)]
      simp [hf, hro]
    · rw [if_neg (asymm hro), if_pos hro]
      simp [hf, asymm hro, hro.ne']
  · rw [if_neg (asymm hf), if_pos hf]
    simp [asymm hf, hf.ne']

/-- The comparator rejects exactly the lexicographic less-or-equal of the
swapped pair. -/
theorem ladderLess_false_iff (a b : LadderEntry) :
    ladderLess b a = false ↔ keyLE a b := by
  rw [← Bool.not_eq_true, ladderLess_iff]
  unfold keyLE
  constructor
  · intro h
    rcases lt_trichotomy a.finalTotal b.finalTotal with hf | hf | hf
    · exact Or.inl hf
    · refine Or.inr ⟨hf, ?_⟩
      rcases lt_trichotomy a.roundTotal b.roundTotal with hro | hro | hro
      · exact Or.inl hro
      · refine Or.inr ⟨hro, ?_⟩
        by_contra hname
        exact h (Or.inr ⟨hf.symm, Or.inr ⟨hro.symm, lt_of_not_le hname⟩⟩)
      · exact absurd (Or.inr ⟨hf.symm, Or.inl hro⟩) h
    · exact absurd (Or.inl hf) h
  · intro h hlt
    rcases h with h | ⟨e1, h⟩ <;> rcases hlt with h' | ⟨e1', h'⟩
    · exact lt_asymm h h'
    · exact absurd e1'.symm h.ne
    · exact absurd e1.symm h'.ne
    · rcases h with h | ⟨e2, h⟩ <;> rcases h' with h' | ⟨e2', h'⟩
      · exact lt_asymm h h'
      · exact absurd e2'.symm h.ne
      · exact absurd e2.symm h'.ne
      · exact absurd h' (not_lt_of_le h)

theorem keyLE_total (a b : LadderEntry) : keyLE a b ∨ keyLE b a := by
  rcases lt_trichotomy a.finalTotal b.finalTotal with hf | hf | hf
  · exact Or.inl (Or.inl hf)
  · rcases lt_trichotomy a.roundTotal b.roundTotal with hro | hro | hro
    · exact Or.inl (Or.inr ⟨hf, Or.inl hro⟩)
    · rcases le_total a.team.name b.team.name with hn | hn
      · exact Or.inl (Or.inr ⟨hf, Or.inr ⟨hro, hn⟩⟩)
      · exact Or.inr (Or.inr ⟨hf.symm, Or.inr ⟨hro.symm, hn⟩⟩)
    · exact Or.inr (Or.inr ⟨hf.symm, Or.inl hro⟩)
  · exact Or.inr (Or.inl hf)

theorem keyLE_trans {a b c : LadderEntry} (h1 : keyLE a b) (h2 : keyLE b c) :
    keyLE a c := by
  rcases h1 with h1 | ⟨e1, h1⟩ <;> rcases h2 with h2 | ⟨e2, h2⟩
  · exact Or.inl (lt_trans h1 h2)
  · exact Or.inl (lt_of_lt_of_eq h1 e2)
  · exact Or.inl (lt_of_eq_of_lt e1 h2)
  · refine Or.inr ⟨e1.trans e2, ?_⟩
    rcases h1 with h1 | ⟨f1, h1⟩ <;> rcases h2 with h2 | ⟨f2, h2⟩
    · exact Or.inl (lt_trans h1 h2)
    · exact Or.inl (lt_of_lt_of_eq h1 f2)
    · exact Or.inl (lt_of_eq_of_lt f1 h2)
    · exact Or.inr ⟨f1.trans f2, le_trans h1 h2⟩

/-- A lexicographic less-or-equal between entries not tied on all keys is
strict. -/
theorem ladderLess_of_keyLE_not_tied {a b : LadderEntry}
    (h : keyLE a b) (hn : ¬ keyTied a b) : ladderLess a b = true := by
  rw [ladderLess_iff]
  rcases h with h | ⟨e1, h⟩
  · exact Or.inl h
  · refine Or.inr ⟨e1, ?_⟩
    rcases h with h | ⟨e2, h⟩
    · exact Or.inl h
    · refine Or.inr ⟨e2, lt_of_le_of_ne h ?_⟩
      intro hname
      exact hn ⟨e1, e2, hname⟩

theorem ladderLess_asymmetric (a b : LadderEntry) :
    ¬ (ladderLess a b = true ∧ ladderLess b a = true) := by
  rintro ⟨h1, h2⟩
  rw [ladderLess_iff] at h1 h2
  rcases h1 with h1 | ⟨e1, h1⟩ <;> rcases h2 with h2 | ⟨e2, h2⟩
  · exact lt_asymm h1 h2
  · exact absurd e2.symm h1.ne
  · exact absurd e1.symm h2.ne
  · rcases h1 with h1 | ⟨f1, h1⟩ <;> rcases h2 with h2 | ⟨f2, h2⟩
    · exact lt_asymm h1 h2
    · exact absurd f2.symm h1.ne
    · exact absurd f1.symm h2.ne
    · exact lt_asymm h1 h2

/-- The sort ordering coincides with lexicographic less-or-equal on the
three keys. -/
theorem ladderSortRel_iff (a b : LadderEntry) : ladderSortRel a b ↔ keyLE a b :=
  ladderLess_false_iff a b

instance : IsTotal LadderEntry ladderSortRel :=
  ⟨fun a b => by
    rcases keyLE_total a b with h | h
    · exact Or.inl ((ladderSortRel_iff a b).mpr h)
    · exact Or.inr ((ladderSortRel_iff b a).mpr h)⟩

instance : IsTrans LadderEntry ladderSortRel :=
  ⟨fun a b c h1 h2 =>
    (ladderSortRel_iff a c).mpr
      (keyLE_trans ((ladderSortRel_iff a b).mp h1) ((ladderSortRel_iff b c).mp h2))⟩

/-- Two lists ordered strictly by the comparator and equal as multisets
are equal. -/
theorem eq_of_perm_of_pairwise_less :
    ∀ l1 l2 : List LadderEntry, List.Perm l1 l2 →
      l1.Pairwise (fun a b => ladderLess a b = true) →
      l2.Pairwise (fun a b => ladderLess a b = true) → l1 = l2 := by
  intro l1
  induction l1 with
  | nil =>
    intro l2 hp _ _
    exact (List.Perm.nil_eq hp).symm.symm
  | cons a t ih =>
    intro l2 hp h1 h2
    cases l2 with
    | nil => exact absurd (List.Perm.eq_nil hp) (by simp)
    | cons b u =>
      have hab : a = b := by
        by_contra hne
        have hamem : a ∈ b :: u := hp.mem_iff.mp (List.mem_cons_self a t)
        have hbmem : b ∈ a :: t := hp.mem_iff.mpr (List.mem_cons_self b u)
        have ha1 : a ∈ u := by
          rcases List.mem_cons.mp hamem with h | h
          · exact absurd h hne
          · exact h
        have hb1 : b ∈ t := by
          rcases List.mem_cons.mp hbmem with h | h
          · exact absurd h.symm hne
          · exact h
        exact ladderLess_asymmetric a b
          ⟨List.rel_of_pairwise_cons h1 hb1, List.rel_of_pairwise_cons h2 ha1⟩
      subst hab
      have ht : List.Perm t u := (List.perm_cons a).mp hp
      rw [ih u ht h1.of_cons h2.of_cons]

/-! ### Claim C1 -/

/-- Claim C1 (amended): every division ladder emitted by
`FetchDanceLadders` is a permutation of the division's computed entries,
sorted ascending by `finalTotal`, ties broken by ascending `roundTotal`,
remaining ties by lexicographic team name; the sort is stable, so two
entries tied on all three keys keep their relative input order; and the
output order is independent of the input iteration order whenever no two
entries are tied on all three keys (for fully tied entries stability
makes the output follow the input order, see the counterexample). -/
theorem C1_ladder_sort_properties :
    (∀ (db : LadderDB) (showAll : Bool) (dl : DivisionLadder),
      dl ∈ FetchDanceLadders db showAll →
        dl.ladder.Pairwise keyLE ∧
        List.Perm dl.ladder
          (ladderEntriesForDivision db (scoreCalcRows db) dl.divisionId)) ∧
    (∀ l : List LadderEntry, (sortLadder l).Pairwise keyLE) ∧
    (∀ (a b : LadderEntry) (l : List LadderEntry), keyTied a b →
      List.Sublist [a, b] l → List.Sublist [a, b] (sortLadder l)) ∧
    (∀ l : List LadderEntry, List.Perm (sortLadder l) l) ∧
    (∀ l1 l2 : List LadderEntry, List.Perm l1 l2 →
      l1.Pairwise (fun a b => ¬ keyTied a b) → sortLadder l1 = sortLadder l2) := by
  have hsorted : ∀ l : List LadderEntry, (sortLadder l).Pairwise keyLE := by
    intro l
    exact (List.sorted_insertionSort ladderSortRel l).imp
      (fun hab => (ladderSortRel_iff _ _).mp hab)
  have hperm : ∀ l : List LadderEntry, List.Perm (sortLadder l) l :=
    fun l => List.perm_insertionSort ladderSortRel l
  have hstable : ∀ (a b : LadderEntry) (l : List LadderEntry), keyTied a b →
      List.Sublist [a, b] l → List.Sublist [a, b] (sortLadder l) := by
    intro a b l htied hsub
    exact List.pair_sublist_insertionSort
      ((ladderSortRel_iff a b).mpr (keyTied_keyLE htied)) hsub
  refine ⟨?_, hsorted, hstable, hperm, ?_⟩
  · intro db showAll dl hdl
    have hdl1 : dl ∈ (((ladderTeamRows db).map (fun t => t.divisionId)).dedup).filterMap
        (fun divId => ((ladderTeamRows db).find? (fun t => t.divisionId == divId)).map
          fun t0 =>
            ({ divisionId := divId, divisionName := t0.division,
               competitionRounds := t0.competitionRounds,
               finalRounds := t0.finalRounds,
               ladder := sortLadder
                 (ladderEntriesForDivision db (scoreCalcRows db) divId) } :
              DivisionLadder)) := hdl
    obtain ⟨divId, _, hmap⟩ := List.mem_filterMap.mp hdl1
    obtain ⟨t0, _, hdl2⟩ := Option.map_eq_some'.mp hmap
    rw [← hdl2]
    exact ⟨hsorted _, hperm _⟩
  · intro l1 l2 hp hdist
    have hsym : ∀ {a b : LadderEntry}, ¬ keyTied a b → ¬ keyTied b a :=
      fun h htied => h (keyTied_symm htied)
    have hdist2 : l2.Pairwise (fun a b => ¬ keyTied a b) :=
      (hp.pairwise_iff hsym).mp hdist
    have hless1 : (sortLadder l1).Pairwise (fun a b => ladderLess a b = true) :=
      ((hsorted l1).and (((hperm l1).pairwise_iff hsym).mpr hdist)).imp
        (fun h => ladderLess_of_keyLE_not_tied h.1 h.2)
    have hless2 : (sortLadder l2).Pairwise (fun a b => ladderLess a b = true) :=
      ((hsorted l2).and (((hperm l2).pairwise_iff hsym).mpr hdist2)).imp
        (fun h => ladderLess_of_keyLE_not_tied h.1 h.2)
    exact eq_of_perm_of_pairwise_less _ _
      ((hperm l1).trans (hp.trans (hperm l2).symm)) hless1 hless2

/-- Ladder entries with distinct sort keys used by the C1 witness. -/
def wEntryA : LadderEntry :=
  mkLadderEntry 2 { id := "wt1", name := "WA", institutionId := "i",
                    institutionName := "School", division := "d" } []

/-- Second distinct-keyed entry of the C1 witness. -/
def wEntryB : LadderEntry :=
  mkLadderEntry 2 { id := "wt2", name := "WB", institutionId := "i",
                    institutionName := "School", division := "d" } []

/-- Witness for C1 (amended): on entries with pairwise distinct keys, the
two input orders sort identically, and the sort is a permutation of its
input. -/
theorem C1_ladder_sort_properties_witness :
    sortLadder [wEntryA, wEntryB] = sortLadder [wEntryB, wEntryA] ∧
    List.Perm (sortLadder [wEntryA, wEntryB]) [wEntryA, wEntryB] := by
  have h := C1_ladder_sort_properties
  refine ⟨h.2.2.2.2 [wEntryA, wEntryB] [wEntryB, wEntryA]
    (List.Perm.swap wEntryB wEntryA []) ?_, h.2.2.2.1 _⟩
  refine List.pairwise_cons.mpr ⟨?_, List.pairwise_singleton _ _⟩
  intro b hb
  rw [List.mem_singleton.mp hb]
  intro htied
  exact absurd htied.2.2 (by decide)

/-- Division of the C1 counterexample. -/
def tieDivision : DivisionRow :=
  { id := "d", name := "Dance", league := "On Stage",
    competitionRounds := 2, finalRounds := 1 }

/-- Institution of the C1 counterexample. -/
def tieInstitution : InstitutionRow := { id := "i", name := "School" }

/-- First of two identically named teams of the C1 counterexample. -/
def tieTeam1 : TeamRow := { id := "t1", name := "A", institution := "i", division := "d" }

/-- Second of two identically named teams of the C1 counterexample. -/
def tieTeam2 : TeamRow := { id := "t2", name := "A", institution := "i", division := "d" }

/-- Store of the C1 counterexample, teams listed as `t1, t2`. -/
def tieDbA : LadderDB :=
  { divisions := [tieDivision], institutions := [tieInstitution],
    teams := [tieTeam1, tieTeam2], scoreSheets := [], sheetSections := [],
    templateSections := [] }

/-- The same store with the teams listed in the opposite order. -/
def tieDbB : LadderDB := { tieDbA with teams := [tieTeam2, tieTeam1] }

/-- Ladder entry of team `t1` in the C1 counterexample. -/
def tieEntry1 : LadderEntry :=
  mkLadderEntry 2 { id := "t1", name := "A", institutionId := "i",
                    institutionName := "School", division := "d" } []

/-- Ladder entry of team `t2` in the C1 counterexample. -/
def tieEntry2 : LadderEntry :=
  mkLadderEntry 2 { id := "t2", name := "A", institutionId := "i",
                    institutionName := "School", division := "d" } []

/-- Counterexample to C1 as stated: two stores holding exactly the same
rows (the teams table merely reordered, which a SQL query without
`ORDER BY` may deliver either way) produce different ladders, because the
two distinct teams named `A` are tied on all three sort keys and the
stable sort keeps their input order.  The output order is therefore not
independent of the input iteration order. -/
theorem C1_counterexample :
    FetchDanceLadders tieDbA true ≠ FetchDanceLadders tieDbB true ∧
    List.Perm tieDbA.teams tieDbB.teams ∧
    tieDbA.divisions = tieDbB.divisions ∧
    tieDbA.institutions = tieDbB.institutions ∧
    tieDbA.scoreSheets = tieDbB.scoreSheets ∧
    tieDbA.sheetSections = tieDbB.sheetSections ∧
    tieDbA.templateSections = tieDbB.templateSections := by
  have htied : keyTied tieEntry1 tieEntry2 := ⟨rfl, rfl, rfl⟩
  have hs12 : List.Sorted ladderSortRel [tieEntry1, tieEntry2] := by
    refine List.sorted_cons.mpr ⟨?_, List.sorted_singleton _⟩
    intro b hb
    rw [List.mem_singleton.mp hb]
    exact (ladderSortRel_iff _ _).mpr (keyTied_keyLE htied)
  have hs21 : List.Sorted ladderSortRel [tieEntry2, tieEntry1] := by
    refine List.sorted_cons.mpr ⟨?_, List.sorted_singleton _⟩
    intro b hb
    rw [List.mem_singleton.mp hb]
    exact (ladderSortRel_iff _ _).mpr (keyTied_keyLE (keyTied_symm htied))
  have hsortA : sortLadder [tieEntry1, tieEntry2] = [tieEntry1, tieEntry2] :=
    List.Sorted.insertionSort_eq hs12
  have hsortB : sortLadder [tieEntry2, tieEntry1] = [tieEntry2, tieEntry1] :=
    List.Sorted.insertionSort_eq hs21
  have hA : FetchDanceLadders tieDbA true =
      [{ divisionId := "d", divisionName := "Dance", competitionRounds := 2,
         finalRounds := 1, ladder := sortLadder [tieEntry1, tieEntry2] }] := rfl
  have hB : FetchDanceLadders tieDbB true =
      [{ divisionId := "d", divisionName := "Dance", competitionRounds := 2,
         finalRounds := 1, ladder := sortLadder [tieEntry2, tieEntry1] }] := rfl
  refine ⟨?_, List.Perm.swap tieTeam2 tieTeam1 [], rfl, rfl, rfl, rfl, rfl⟩
  rw [hA, hB, hsortA, hsortB]
  intro hcontra
  simp [tieEntry1, tieEntry2, mkLadderEntry] at hcontra

/-! ### Claim C9 -/

/-- Claim C9: `FetchDanceLadders` is insensitive to its `showAll`
argument — any two boolean arguments give the same result on every store
state — and no per-division filtering occurs: every team row of the On
Stage teams query contributes a ladder for its division. -/
theorem C9_showAll_insensitive :
    (∀ (db : LadderDB) (a b : Bool), FetchDanceLadders db a = FetchDanceLadders db b) ∧
    (∀ (db : LadderDB) (b : Bool) (t : LadderTeamRow), t ∈ ladderTeamRows db →
      ∃ dl ∈ FetchDanceLadders db b, dl.divisionId = t.divisionId) := by
  refine ⟨fun db a b => rfl, ?_⟩
  intro db b t ht
  have hmem : t.divisionId ∈ ((ladderTeamRows db).map (fun t => t.divisionId)).dedup := by
    rw [List.mem_dedup]
    exact List.mem_map_of_mem _ ht
  have hsome : ((ladderTeamRows db).find? (fun t0 => t0.divisionId == t.divisionId)).isSome := by
    rw [List.find?_isSome]
    exact ⟨t, ht, by simp⟩
  obtain ⟨t0, hfind⟩ := Option.isSome_iff_exists.mp hsome
  refine ⟨{ divisionId := t.divisionId, divisionName := t0.division,
            competitionRounds := t0.competitionRounds,
            finalRounds := t0.finalRounds,
            ladder := sortLadder
              (ladderEntriesForDivision db (scoreCalcRows db) t.divisionId) },
    ?_, rfl⟩
  show _ ∈ (((ladderTeamRows db).map (fun t => t.divisionId)).dedup).filterMap
    (fun divId => ((ladderTeamRows db).find? (fun t1 => t1.divisionId == divId)).map
      fun t1 =>
        ({ divisionId := divId, divisionName := t1.division,
           competitionRounds := t1.competitionRounds,
           finalRounds := t1.finalRounds,
           ladder := sortLadder
             (ladderEntriesForDivision db (scoreCalcRows db) divId) } :
          DivisionLadder))
  exact List.mem_filterMap.mpr ⟨t.divisionId, hmem, by rw [hfind]; rfl⟩

/-! ### Claim C3 -/

/-- Modelled from the spec for comparison: the per-team score rows taken
with their exact SQL averages, with no intermediate rounding and no float
conversion, as §4.1 of the specification describes the aggregation.  The
code pipeline (`teamRoundAverages`) instead applies
`Average.Round(2).Float64()` to each average first. -/
def exactTeamRoundAverages (scores : List ScoreCalcRow) (teamId : String) :
    List RoundAverage :=
  (scores.filter (fun s => s.team == teamId)).map fun s =>
    { round := s.round, average := s.average, count := s.count }

/-- Claim C3 (amended): a sheet's total is the exact decimal sum of
`value * multiplier` over its joined sections, and the SQL averages are
exact; but each per-(team, round) average is rounded to two decimal
places and converted to float once, before aggregation, when the ladder
rows are built; the aggregation of these rounded averages into
`interviewScore` and `roundTotal` is then exact decimal arithmetic. -/
theorem C3_fixed_point_arithmetic :
    (∀ (db : LadderDB) (sheetId : String),
      sheetTotal db sheetId = (joinedSectionValues db sheetId).sum) ∧
    (∀ (scores : List ScoreCalcRow) (teamId : String),
      teamRoundAverages scores teamId =
        (exactTeamRoundAverages scores teamId).map
          (fun s => { round := s.round, average := decimalRound2 s.average,
                      count := s.count })) ∧
    (∀ (N : Int) (team : PbTeam) (l : List RoundAverage),
      (mkLadderEntry N team l).interviewScore =
        ((l.filter (fun s => s.round == 0)).map (fun s => s.average)).sum ∧
      (mkLadderEntry N team l).roundTotal =
        (mkLadderEntry N team l).interviewScore + (mkLadderEntry N team l).bestRound) := by
  refine ⟨fun db sheetId => rfl, ?_, ?_⟩
  · intro scores teamId
    unfold teamRoundAverages exactTeamRoundAverages
    rw [List.map_map]
    rfl
  · intro N team l
    constructor
    · show (l.foldl (aggStep N) ⟨0, 0, 0⟩).interviewScore = _
      rw [agg_foldl]
      simp
    · rfl

/-- Team row of the C3 counterexample. -/
def c3Team : PbTeam :=
  { id := "t", name := "T", institutionId := "i",
    institutionName := "School", division := "d" }

/-- Store of the C3 counterexample: one On Stage division, one team, one
template section with multiplier 1, and two interview-round sheets with
section values 10 and 10.01, whose exact average 10.005 is not
representable at two decimal places. -/
def c3Db : LadderDB :=
  { divisions := [{ id := "d", name := "Dance", league := "On Stage",
                    competitionRounds := 2, finalRounds := 1 }],
    institutions := [{ id := "i", name := "School" }],
    teams := [{ id := "t", name := "T", institution := "i", division := "d" }],
    scoreSheets := [{ id := "s1", team := "t", round := 0 },
                    { id := "s2", team := "t", round := 0 }],
    sheetSections := [{ scoreSheet := "s1", sectionId := "m1", value := 10 },
                      { scoreSheet := "s2", sectionId := "m1", value := 1001/100 }],
    templateSections := [{ id := "m1", multiplier := 1 }] }

/-- Counterexample to C3 as stated: with two interview sheets totalling
10 and 10.01, the exact average is 10.005, but the code rounds it to
10.01 before aggregating, so the team's `roundTotal` differs from the
value computed with no intermediate rounding — the rounding does not
happen only once at the final reported value. -/
theorem C3_counterexample :
    (mkLadderEntry 2 c3Team (teamRoundAverages (scoreCalcRows c3Db) "t")).roundTotal ≠
      (mkLadderEntry 2 c3Team (exactTeamRoundAverages (scoreCalcRows c3Db) "t")).roundTotal := by
  have h1 : scoreCalcRows c3Db = [{ team := "t", round := 0, average := 2001/200, count := 2 }] := by
    norm_num +decide [scoreCalcRows, scoreGroupKeys, groupSheets, joinedSectionValues,
      sheetTotal, c3Db, List.filterMap_cons, List.filterMap_nil]
  have h2 : teamRoundAverages (scoreCalcRows c3Db) "t" =
      [{ round := 0, average := 1001/100, count := 2 }] := by
    rw [h1]
    norm_num +decide [teamRoundAverages, decimalRound2, roundHalfAwayFromZero]
  have h3 : exactTeamRoundAverages (scoreCalcRows c3Db) "t" =
      [{ round := 0, average := 2001/200, count := 2 }] := by
    rw [h1]
    norm_num +decide [exactTeamRoundAverages]
  rw [h2, h3]
  show (List.foldl (aggStep 2) ⟨0, 0, 0⟩ _).interviewScore + _ ≠
    (List.foldl (aggStep 2) ⟨0, 0, 0⟩ _).interviewScore + _
  norm_num [aggStep]

/-! ### Helper lemmas on the score sheet store -/

/-- A fresh sheet id matches no persisted header row. -/
theorem headerQuery_fresh (st : SheetStore) (hfresh : st.Fresh) :
    headerQuery st st.nextSheetId = Except.error .sqlNoRows := by
  unfold headerQuery
  have hnone : st.scoreSheets.find? (fun r => r.id == st.nextSheetId) = none := by
    rw [List.find?_eq_none]
    intro r hr
    simp only [beq_iff_eq]
    exact Nat.ne_of_lt (hfresh.1 r hr)
  rw [hnone]

/-- Fetching a fresh sheet id reports the wrapped `sql.ErrNoRows`. -/
theorem fetchScoreSheet_fresh (st : SheetStore) (hfresh : st.Fresh) :
    FetchScoreSheet st st.nextSheetId =
      Except.error (StoreError.fetchWrapped .sqlNoRows) := by
  unfold FetchScoreSheet fetchScoreSheetWith
  rw [if_neg (by simp), if_neg (by simp), headerQuery_fresh st hfresh]

/-- Bulk section insertion leaves the header table unchanged. -/
theorem insertSectionRows_scoreSheets (secs : List PbScoreSheetSection) :
    ∀ (s : SheetStore) (i : Nat),
      (insertSectionRows s i secs).scoreSheets = s.scoreSheets := by
  induction secs with
  | nil => intro s i; rfl
  | cons sec t ih => intro s i; exact ih _ i

/-- Bulk section insertion leaves the template section table unchanged. -/
theorem insertSectionRows_templateSections (secs : List PbScoreSheetSection) :
    ∀ (s : SheetStore) (i : Nat),
      (insertSectionRows s i secs).templateSections = s.templateSections := by
  induction secs with
  | nil => intro s i; rfl
  | cons sec t ih => intro s i; exact ih _ i

/-- The header row `CreateScoreSheet` inserts for a mutated sheet. -/
def insertedHeaderRow (st : SheetStore) (sheet : PbScoreSheet) : DbScoreSheetRow :=
  { id := st.nextSheetId, division := sheet.divisionId, team := sheet.teamId,
    template := sheet.scoreSheetTemplateId, timings := sheet.timings,
    comments := sheet.comments, round := sheet.round, author := sheet.authorId,
    createdAt := st.now }

/-- After the header insert, the fresh id resolves to the new header
row. -/
theorem headerQuery_insert (st : SheetStore) (sheet : PbScoreSheet) (hfresh : st.Fresh) :
    headerQuery (insertSheetHeader st sheet).1 st.nextSheetId =
      Except.ok (insertedHeaderRow st sheet) := by
  unfold headerQuery insertSheetHeader
  have hnone : st.scoreSheets.find? (fun r => r.id == st.nextSheetId) = none := by
    rw [List.find?_eq_none]
    intro r hr
    simp only [beq_iff_eq]
    exact Nat.ne_of_lt (hfresh.1 r hr)
  rw [List.find?_append, hnone]
  simp [insertedHeaderRow]

/-! ### Claim C4 -/

/-- Claim C4: `CreateScoreSheet` is all-or-nothing.  Whenever the
operation reports an error, the store is unchanged and a fetch by the
attempted id (the next generated one) finds nothing; a mutator error is
surfaced verbatim with the store unchanged; a failing header insert or a
failing bulk section insert (the latter reachable whenever the mutated
sheet has sections) makes the operation report an error; and on success
the returned value is exactly the sheet re-fetched from the committed
store, not the in-memory mutated object. -/
theorem C4_create_all_or_nothing (st : SheetStore)
    (handler : PbScoreSheet → Except StoreError PbScoreSheet)
    (fail : CreateFailures) (hfresh : st.Fresh) :
    (∀ e, (CreateScoreSheet st handler fail).2 = Except.error e →
      (CreateScoreSheet st handler fail).1 = st ∧
      FetchScoreSheet st st.nextSheetId =
        Except.error (StoreError.fetchWrapped .sqlNoRows)) ∧
    (∀ e, handler emptyPbScoreSheet = Except.error e →
      CreateScoreSheet st handler fail = (st, Except.error e)) ∧
    (fail.headerInsertFails = true →
      ∃ e, (CreateScoreSheet st handler fail).2 = Except.error e) ∧
    (∀ sheet, handler emptyPbScoreSheet = Except.ok sheet → sheet.sections ≠ [] →
      fail.sectionInsertFails = true →
      ∃ e, (CreateScoreSheet st handler fail).2 = Except.error e) ∧
    (∀ sheet, (CreateScoreSheet st handler fail).2 = Except.ok sheet →
      FetchScoreSheet (CreateScoreSheet st handler fail).1 st.nextSheetId =
        Except.ok sheet) := by
  have hfetch := fetchScoreSheet_fresh st hfresh
  cases hh : handler emptyPbScoreSheet with
  | error e0 =>
    have hC : CreateScoreSheet st handler fail = (st, Except.error e0) := by
      unfold CreateScoreSheet createScoreSheetTx
      rw [hh]
    rw [hC]
    refine ⟨fun e he => ⟨rfl, hfetch⟩, fun e he => ?_, fun _ => ⟨e0, rfl⟩, ?_, ?_⟩
    · cases he
      rfl
    · intro sheet hsheet
      cases hsheet
    · intro sheet hsheet
      cases hsheet
  | ok sheet0 =>
    cases hfH : fail.headerInsertFails with
    | true =>
      have hC : CreateScoreSheet st handler fail =
          (st, Except.error (StoreError.statementFailed "insert score_sheets")) := by
        unfold CreateScoreSheet createScoreSheetTx
        rw [hh, hfH]
        rfl
      rw [hC]
      refine ⟨fun e he => ⟨rfl, hfetch⟩, fun e he => ?_, fun _ => ⟨_, rfl⟩, ?_, ?_⟩
      · cases he
      · intro sheet hsheet _ _
        exact ⟨_, rfl⟩
      · intro sheet hsheet
        cases hsheet
    | false =>
      cases hem : sheet0.sections.isEmpty with
      | true =>
        have hC : CreateScoreSheet st handler fail =
            ((insertSheetHeader st sheet0).1,
              FetchScoreSheet (insertSheetHeader st sheet0).1 st.nextSheetId) := by
          unfold CreateScoreSheet createScoreSheetTx
          rw [hh, hfH]
          simp only [Bool.false_eq_true, if_false, hem, if_true]
          rfl
        have hok : FetchScoreSheet (insertSheetHeader st sheet0).1 st.nextSheetId =
            Except.ok (compositeSheet (insertedHeaderRow st sheet0)
              (sectionsQueryRows (insertSheetHeader st sheet0).1 st.nextSheetId)) := by
          unfold FetchScoreSheet fetchScoreSheetWith
          rw [if_neg (by simp), if_neg (by simp), headerQuery_insert st sheet0 hfresh]
        rw [hC]
        refine ⟨fun e he => ?_, fun e he => ?_, fun h => by simp at h, ?_, ?_⟩
        · rw [hok] at he
          cases he
        · cases he
        · intro sheet hsheet hne _
          cases hsheet
          exact absurd (List.isEmpty_iff.mp hem) hne
        · intro sheet hsheet
          exact hsheet
      | false =>
        cases hfS : fail.sectionInsertFails with
        | true =>
          have hC : CreateScoreSheet st handler fail =
              (st, Except.error (StoreError.statementFailed "insert score_sheet_sections")) := by
            unfold CreateScoreSheet createScoreSheetTx
            rw [hh, hfH]
            simp only [Bool.false_eq_true, if_false, hem, hfS, if_true]
          rw [hC]
          refine ⟨fun e he => ⟨rfl, hfetch⟩, fun e he => ?_, ?_, ?_, ?_⟩
          · cases he
          · intro h
            simp at h
          · intro sheet hsheet _ _
            exact ⟨_, rfl⟩
          · intro sheet hsheet
            cases hsheet
        | false =>
          have hC : CreateScoreSheet st handler fail =
              ((insertSectionRows (insertSheetHeader st sheet0).1
                  (insertSheetHeader st sheet0).2 sheet0.sections),
                FetchScoreSheet (insertSectionRows (insertSheetHeader st sheet0).1
                  (insertSheetHeader st sheet0).2 sheet0.sections) st.nextSheetId) := by
            unfold CreateScoreSheet createScoreSheetTx
            rw [hh, hfH]
            simp only [Bool.false_eq_true, if_false, hem, hfS]
            rfl
          have hok : ∃ s, FetchScoreSheet (insertSectionRows (insertSheetHeader st sheet0).1
              (insertSheetHeader st sheet0).2 sheet0.sections) st.nextSheetId =
              Except.ok s := by
            unfold FetchScoreSheet fetchScoreSheetWith
            rw [if_neg (by simp), if_neg (by simp)]
            have hq : headerQuery (insertSectionRows (insertSheetHeader st sheet0).1
                (insertSheetHeader st sheet0).2 sheet0.sections) st.nextSheetId =
                Except.ok (insertedHeaderRow st sheet0) := by
              unfold headerQuery
              rw [insertSectionRows_scoreSheets]
              have := headerQuery_insert st sheet0 hfresh
              unfold headerQuery at this
              exact this
            rw [hq]
            exact ⟨_, rfl⟩
          obtain ⟨s, hs⟩ := hok
          rw [hC]
          refine ⟨fun e he => ?_, fun e he => ?_, ?_, ?_, ?_⟩
          · rw [hs] at he
            cases he
          · cases he
          · intro h
            simp at h
          · intro sheet hsheet _ h
            simp at h
          · intro sheet hsheet
            exact hsheet

/-! ### Claim C5 -/

/-- One in-place section value update changes no row id, template section
reference or sheet reference. -/
theorem updateSectionValue_shape (s : SheetStore) (rowId : Nat) (v : ℚ) :
    (updateSectionValue s rowId v).scoreSheetSections.map
        (fun r => (r.id, r.sectionId, r.scoreSheet)) =
      s.scoreSheetSections.map (fun r => (r.id, r.sectionId, r.scoreSheet)) := by
  unfold updateSectionValue
  rw [List.map_map]
  apply List.map_congr_left
  intro r _
  by_cases h : r.id = rowId <;> simp [h]

/-- The section update loop of `UpdateScoreSheet` changes no row id,
template section reference or sheet reference. -/
theorem updateSections_shape (secs : List PbScoreSheetSection) :
    ∀ s : SheetStore,
      ((secs.foldl (fun s sec => updateSectionValue s sec.id sec.value) s)
          ).scoreSheetSections.map (fun r => (r.id, r.sectionId, r.scoreSheet)) =
        s.scoreSheetSections.map (fun r => (r.id, r.sectionId, r.scoreSheet)) := by
  induction secs with
  | nil => intro s; rfl
  | cons sec t ih =>
    intro s
    rw [List.foldl_cons, ih, updateSectionValue_shape]

/-- The header update of `UpdateScoreSheet` touches only `team`,
`timings` and `comments`. -/
theorem updateSheetHeaderRow_frame (st : SheetStore) (sheetId : Nat) (sheet : PbScoreSheet) :
    (updateSheetHeaderRow st sheetId sheet).scoreSheets.map
        (fun r => (r.id, r.division, r.template, r.round, r.author, r.createdAt)) =
      st.scoreSheets.map
        (fun r => (r.id, r.division, r.template, r.round, r.author, r.createdAt)) := by
  unfold updateSheetHeaderRow
  rw [List.map_map]
  apply List.map_congr_left
  intro r _
  by_cases h : r.id = sheetId <;> simp [h]

/-- The section update loop never touches the header table. -/
theorem updateSections_scoreSheets (secs : List PbScoreSheetSection) :
    ∀ s : SheetStore,
      (secs.foldl (fun s sec => updateSectionValue s sec.id sec.value) s).scoreSheets =
        s.scoreSheets := by
  induction secs with
  | nil => intro s; rfl
  | cons sec t ih =>
    intro s
    rw [List.foldl_cons, ih]
    rfl

/-- Case analysis of `UpdateScoreSheet`: the in-transaction fetch fails
and rolls back, the mutator fails and rolls back, or both succeed and the
header update plus the per-section value updates commit. -/
theorem updateScoreSheet_cases (st : SheetStore) (sheetId : Nat)
    (handler : PbScoreSheet → Except StoreError PbScoreSheet) :
    (∃ e, FetchScoreSheet st sheetId = Except.error e ∧
      UpdateScoreSheet st sheetId handler = (st, Except.error e)) ∨
    (∃ sheet e, FetchScoreSheet st sheetId = Except.ok sheet ∧
      handler sheet = Except.error e ∧
      UpdateScoreSheet st sheetId handler = (st, Except.error e)) ∨
    (∃ sheet sheet1, FetchScoreSheet st sheetId = Except.ok sheet ∧
      handler sheet = Except.ok sheet1 ∧
      UpdateScoreSheet st sheetId handler =
        (sheet1.sections.foldl (fun s sec => updateSectionValue s sec.id sec.value)
            (updateSheetHeaderRow st sheetId sheet1),
          FetchScoreSheet (sheet1.sections.foldl
            (fun s sec => updateSectionValue s sec.id sec.value)
            (updateSheetHeaderRow st sheetId sheet1)) sheetId)) := by
  cases hF : FetchScoreSheet st sheetId with
  | error e =>
    refine Or.inl ⟨e, rfl, ?_⟩
    simp only [UpdateScoreSheet, updateScoreSheetTx, hF]
  | ok sheet =>
    cases hH : handler sheet with
    | error e =>
      refine Or.inr (Or.inl ⟨sheet, e, rfl, hH, ?_⟩)
      simp only [UpdateScoreSheet, updateScoreSheetTx, hF, hH]
    | ok sheet1 =>
      refine Or.inr (Or.inr ⟨sheet, sheet1, rfl, hH, ?_⟩)
      simp only [UpdateScoreSheet, updateScoreSheetTx, hF, hH]

/-- Claim C5: for every store, sheet id and mutator, `UpdateScoreSheet`
writes back only the mutable header fields and per-section values
addressed by row id: it never inserts or deletes score-sheet-section rows
(every section row keeps its id, template-section reference and sheet
reference, so the number of section rows of every sheet is unchanged),
and every header row keeps its id, division, template, round, author and
creation timestamp. -/
theorem C5_update_frame (st : SheetStore) (sheetId : Nat)
    (handler : PbScoreSheet → Except StoreError PbScoreSheet) :
    ((UpdateScoreSheet st sheetId handler).1.scoreSheetSections.map
        (fun r => (r.id, r.sectionId, r.scoreSheet)) =
      st.scoreSheetSections.map (fun r => (r.id, r.sectionId, r.scoreSheet))) ∧
    ((UpdateScoreSheet st sheetId handler).1.scoreSheets.map
        (fun r => (r.id, r.division, r.template, r.round, r.author, r.createdAt)) =
      st.scoreSheets.map
        (fun r => (r.id, r.division, r.template, r.round, r.author, r.createdAt))) ∧
    (∀ sid : Nat,
      ((UpdateScoreSheet st sheetId handler).1.scoreSheetSections.filter
          (fun r => r.scoreSheet == sid)).length =
        (st.scoreSheetSections.filter (fun r => r.scoreSheet == sid)).length) := by
  have hcount : ∀ (l : List DbScoreSheetSectionRow) (sid : Nat),
      (l.filter (fun r => r.scoreSheet == sid)).length =
        (l.map (fun r => (r.id, r.sectionId, r.scoreSheet))).countP
          (fun t => t.2.2 == sid) := by
    intro l sid
    rw [← List.countP_eq_length_filter, List.countP_map]
    rfl
  have hshape : (UpdateScoreSheet st sheetId handler).1.scoreSheetSections.map
      (fun r => (r.id, r.sectionId, r.scoreSheet)) =
      st.scoreSheetSections.map (fun r => (r.id, r.sectionId, r.scoreSheet)) := by
    rcases updateScoreSheet_cases st sheetId handler with
      ⟨e, _, hU⟩ | ⟨sheet, e, _, _, hU⟩ | ⟨sheet, sheet1, _, _, hU⟩ <;> rw [hU]
    rw [updateSections_shape]
    rfl
  have hheaders : (UpdateScoreSheet st sheetId handler).1.scoreSheets.map
      (fun r => (r.id, r.division, r.template, r.round, r.author, r.createdAt)) =
      st.scoreSheets.map
        (fun r => (r.id, r.division, r.template, r.round, r.author, r.createdAt)) := by
    rcases updateScoreSheet_cases st sheetId handler with
      ⟨e, _, hU⟩ | ⟨sheet, e, _, _, hU⟩ | ⟨sheet, sheet1, _, _, hU⟩ <;> rw [hU]
    rw [updateSections_scoreSheets]
    exact updateSheetHeaderRow_frame st sheetId sheet1
  refine ⟨hshape, hheaders, ?_⟩
  intro sid
  rw [hcount, hcount, hshape]

/-! ### Claim C6 -/

/-- Claim C6: the `FetchScoreSheet` fan-out joins the header task and the
sections task before returning.  When neither task fails the composite
sheet (header plus ordered sections) is returned; if any task fails the
whole fetch returns an error (so no partial `ScoreSheet` is returned,
the result type carrying either a sheet or an error); and when both tasks
fail, the surfaced error is the one of the task that reached its terminal
state first, for either schedule. -/
theorem C6_fetch_join (st : SheetStore) (sheetId : Nat) (fail : QueryFailures)
    (headerFinishesFirst : Bool) :
    (∀ r, st.scoreSheets.find? (fun r0 => r0.id == sheetId) = some r →
      fail.headerFails = false → fail.sectionsFails = false →
      fetchScoreSheetWith st sheetId fail headerFinishesFirst =
        Except.ok (compositeSheet r (sectionsQueryRows st sheetId))) ∧
    ((fail.headerFails = true ∨ fail.sectionsFails = true ∨
        st.scoreSheets.find? (fun r0 => r0.id == sheetId) = none) →
      ∃ e, fetchScoreSheetWith st sheetId fail headerFinishesFirst =
        Except.error (StoreError.fetchWrapped e)) ∧
    (fail.headerFails = true → fail.sectionsFails = true →
      fetchScoreSheetWith st sheetId fail headerFinishesFirst =
        Except.error (StoreError.fetchWrapped
          (if headerFinishesFirst then StoreError.statementFailed "select score_sheets"
           else StoreError.statementFailed "select score_sheet_sections"))) := by
  refine ⟨?_, ?_, ?_⟩
  · intro r hr hH hS
    simp only [fetchScoreSheetWith, headerQuery, hH, hS, hr, Bool.false_eq_true, if_false]
  · intro h
    cases hH : fail.headerFails with
    | true =>
      cases hS : fail.sectionsFails with
      | true =>
        refine ⟨if headerFinishesFirst then StoreError.statementFailed "select score_sheets"
          else StoreError.statementFailed "select score_sheet_sections", ?_⟩
        simp only [fetchScoreSheetWith, hH, hS, if_true]
      | false =>
        refine ⟨StoreError.statementFailed "select score_sheets", ?_⟩
        simp only [fetchScoreSheetWith, hH, hS, Bool.false_eq_true, if_false, if_true]
    | false =>
      cases hS : fail.sectionsFails with
      | true =>
        cases hfind : st.scoreSheets.find? (fun r0 => r0.id == sheetId) with
        | some r =>
          refine ⟨StoreError.statementFailed "select score_sheet_sections", ?_⟩
          simp only [fetchScoreSheetWith, headerQuery, hH, hS, hfind, Bool.false_eq_true,
            if_false, if_true]
        | none =>
          refine ⟨if headerFinishesFirst then StoreError.sqlNoRows
            else StoreError.statementFailed "select score_sheet_sections", ?_⟩
          simp only [fetchScoreSheetWith, headerQuery, hH, hS, hfind, Bool.false_eq_true,
            if_false, if_true]
      | false =>
        rcases h with h | h | h
        · rw [hH] at h
          cases h
        · rw [hS] at h
          cases h
        · refine ⟨StoreError.sqlNoRows, ?_⟩
          simp only [fetchScoreSheetWith, headerQuery, hH, hS, h, Bool.false_eq_true, if_false]
  · intro hH hS
    simp only [fetchScoreSheetWith, hH, hS, if_true]

/-! ### Claim C7 -/

/-- Claim C7: for a sheet id absent from the store, `UpdateScoreSheet`
surfaces the wrapped `sql.ErrNoRows` not-found error — a value distinct
from every mutator-made error — before any write, leaving the store
unchanged; and whenever the mutator fails, the transaction rolls back and
its error is surfaced verbatim, the store again unchanged. -/
theorem C7_update_not_found_and_mutator (st : SheetStore) (sheetId : Nat)
    (handler : PbScoreSheet → Except StoreError PbScoreSheet) :
    ((∀ r ∈ st.scoreSheets, r.id ≠ sheetId) →
      UpdateScoreSheet st sheetId handler =
        (st, Except.error (StoreError.fetchWrapped .sqlNoRows))) ∧
    (∀ sheet e, FetchScoreSheet st sheetId = Except.ok sheet →
      handler sheet = Except.error e →
      UpdateScoreSheet st sheetId handler = (st, Except.error e)) ∧
    (∀ msg, StoreError.fetchWrapped .sqlNoRows ≠ StoreError.handlerFailed msg) := by
  refine ⟨?_, ?_, fun msg h => by cases h⟩
  · intro habs
    have hF : FetchScoreSheet st sheetId =
        Except.error (StoreError.fetchWrapped .sqlNoRows) := by
      unfold FetchScoreSheet fetchScoreSheetWith headerQuery
      have hnone : st.scoreSheets.find? (fun r => r.id == sheetId) = none := by
        rw [List.find?_eq_none]
        intro r hr
        simp only [beq_iff_eq]
        exact habs r hr
      rw [if_neg (by simp), if_neg (by simp), hnone]
    rcases updateScoreSheet_cases st sheetId handler with
      ⟨e, he, hU⟩ | ⟨sheet, e, hf, _, _⟩ | ⟨sheet, sheet1, hf, _, _⟩
    · rw [hF] at he
      cases he
      exact hU
    · rw [hF] at hf
      cases hf
    · rw [hF] at hf
      cases hf
  · intro sheet e hf hh
    rcases updateScoreSheet_cases st sheetId handler with
      ⟨e1, he, hU⟩ | ⟨sheet2, e2, hf2, hh2, hU⟩ | ⟨sheet2, sheet3, hf2, hh2, hU⟩
    · rw [hf] at he
      cases he
    · rw [hf] at hf2
      cases hf2
      rw [hh] at hh2
      cases hh2
      exact hU
    · rw [hf] at hf2
      cases hf2
      rw [hh] at hh2
      cases hh2

/-! ### Claim C10 -/

/-- Claim C10 (amended): when the mutator succeeds and leaves the
sections list empty, `CreateScoreSheet` does not fail: squirrel's
`ToSql` error for the zero-row insert is discarded, the resulting empty
statement executes as a no-op, and the transaction commits a sheet
header with no section rows; the operation returns the re-fetched sheet
with an empty sections list. -/
theorem C10_empty_sections_create_succeeds (st : SheetStore)
    (handler : PbScoreSheet → Except StoreError PbScoreSheet) (sheet : PbScoreSheet)
    (hok : handler emptyPbScoreSheet = Except.ok sheet) (hempty : sheet.sections = [])
    (hfresh : st.Fresh) :
    (CreateScoreSheet st handler ⟨false, false⟩).1.scoreSheets =
      st.scoreSheets ++ [insertedHeaderRow st sheet] ∧
    (CreateScoreSheet st handler ⟨false, false⟩).1.scoreSheetSections =
      st.scoreSheetSections ∧
    (CreateScoreSheet st handler ⟨false, false⟩).2 =
      Except.ok (compositeSheet (insertedHeaderRow st sheet) []) := by
  have hC : CreateScoreSheet st handler ⟨false, false⟩ =
      ((insertSheetHeader st sheet).1,
        FetchScoreSheet (insertSheetHeader st sheet).1 st.nextSheetId) := by
    unfold CreateScoreSheet createScoreSheetTx
    rw [hok]
    simp only [hempty, List.isEmpty_nil, if_true, Bool.false_eq_true, if_false]
    rfl
  have hsecs : sectionsQueryRows (insertSheetHeader st sheet).1 st.nextSheetId = [] := by
    unfold sectionsQueryRows
    have hfilter : st.scoreSheetSections.filter
        (fun r => r.scoreSheet == st.nextSheetId) = [] := by
      rw [List.filter_eq_nil_iff]
      intro r hr
      simp only [beq_iff_eq]
      exact Nat.ne_of_lt (hfresh.2 r hr)
    show ((((insertSheetHeader st sheet).1.scoreSheetSections.filter
        (fun r => r.scoreSheet == st.nextSheetId)).filterMap _).insertionSort _).map _ = []
    have hsame : (insertSheetHeader st sheet).1.scoreSheetSections =
        st.scoreSheetSections := rfl
    rw [hsame, hfilter]
    rfl
  have hfetch : FetchScoreSheet (insertSheetHeader st sheet).1 st.nextSheetId =
      Except.ok (compositeSheet (insertedHeaderRow st sheet) []) := by
    unfold FetchScoreSheet fetchScoreSheetWith
    rw [if_neg (by simp), if_neg (by simp), headerQuery_insert st sheet hfresh, hsecs]
  rw [hC]
  exact ⟨rfl, rfl, by rw [hfetch]⟩

/-! ### Concrete stores and witnesses -/

/-- Empty store used by the concrete instances. -/
def c10Store : SheetStore :=
  { scoreSheets := [], scoreSheetSections := [], templateSections := [],
    nextSheetId := 1, nextSectionId := 1, now := 5 }

/-- Mutator that accepts the zero sheet unchanged, leaving its sections
empty. -/
def c10Handler : PbScoreSheet → Except StoreError PbScoreSheet := fun s => Except.ok s

/-- The sheet the empty-sections create returns after its re-fetch. -/
def c10CreatedSheet : PbScoreSheet :=
  { id := 1, scoreSheetTemplateId := "", comments := "", round := 0,
    teamId := "", authorId := "", divisionId := "", timings := [], sections := [] }

/-- The orphan header row the empty-sections create persists. -/
def c10CreatedRow : DbScoreSheetRow :=
  { id := 1, division := "", team := "", template := "", timings := [],
    comments := "", round := 0, author := "", createdAt := 5 }

/-- Counterexample to C10 as stated: a mutator that leaves the sections
list empty does not make `CreateScoreSheet` fail — on the empty store the
operation succeeds, persists a header row with zero section rows, and
returns the re-fetched sheet with an empty sections list. -/
theorem C10_counterexample :
    (CreateScoreSheet c10Store c10Handler ⟨false, false⟩).2 =
      Except.ok c10CreatedSheet ∧
    (CreateScoreSheet c10Store c10Handler ⟨false, false⟩).1.scoreSheets =
      [c10CreatedRow] := by
  exact ⟨rfl, rfl⟩

/-- Witness for C10 (amended) on the empty store. -/
theorem C10_empty_sections_create_succeeds_witness :
    (CreateScoreSheet c10Store c10Handler ⟨false, false⟩).1.scoreSheetSections = [] ∧
    (CreateScoreSheet c10Store c10Handler ⟨false, false⟩).2 =
      Except.ok (compositeSheet (insertedHeaderRow c10Store emptyPbScoreSheet) []) := by
  have h := C10_empty_sections_create_succeeds c10Store c10Handler
    emptyPbScoreSheet rfl rfl (by decide)
  exact ⟨h.2.1, h.2.2⟩

/-- Mutator that always rejects its input, used by the C4 witness. -/
def c4FailHandler : PbScoreSheet → Except StoreError PbScoreSheet :=
  fun _ => Except.error (StoreError.handlerFailed "invalid")

/-- Witness for C4: a rejected mutator rolls back on the empty store and
the attempted id stays unfetchable. -/
theorem C4_create_all_or_nothing_witness :
    CreateScoreSheet c10Store c4FailHandler ⟨false, false⟩ =
      (c10Store, Except.error (StoreError.handlerFailed "invalid")) ∧
    FetchScoreSheet c10Store c10Store.nextSheetId =
      Except.error (StoreError.fetchWrapped .sqlNoRows) := by
  have h := C4_create_all_or_nothing c10Store c4FailHandler ⟨false, false⟩ (by decide)
  have h2 := h.2.1 (StoreError.handlerFailed "invalid") rfl
  exact ⟨h2, (h.1 (StoreError.handlerFailed "invalid") (by rw [h2])).2⟩

/-- Header row of the one-sheet store used by the C6 and C7 witnesses. -/
def c6Row : DbScoreSheetRow :=
  { id := 1, division := "d", team := "t", template := "tpl", timings := [],
    comments := "", round := 0, author := "u", createdAt := 0 }

/-- Section row of the one-sheet store. -/
def c6SectionRow : DbScoreSheetSectionRow :=
  { id := 1, sectionId := "m1", value := 5, scoreSheet := 1 }

/-- Store holding one sheet with one section. -/
def c6Store : SheetStore :=
  { scoreSheets := [c6Row], scoreSheetSections := [c6SectionRow],
    templateSections := [{ id := "m1", displayOrder := 0 }],
    nextSheetId := 2, nextSectionId := 2, now := 0 }

/-- Witness for C6: on the one-sheet store the clean fan-out returns the
composite sheet, and with both queries failing the schedule's first error
is surfaced wrapped. -/
theorem C6_fetch_join_witness :
    fetchScoreSheetWith c6Store 1 ⟨false, false⟩ true =
      Except.ok (compositeSheet c6Row (sectionsQueryRows c6Store 1)) ∧
    fetchScoreSheetWith c6Store 1 ⟨true, true⟩ true =
      Except.error (StoreError.fetchWrapped
        (StoreError.statementFailed "select score_sheets")) := by
  refine ⟨(C6_fetch_join c6Store 1 ⟨false, false⟩ true).1 c6Row rfl rfl rfl, ?_⟩
  exact (C6_fetch_join c6Store 1 ⟨true, true⟩ true).2.2 rfl rfl

/-- Mutator that always fails with a distinctive message, used by the C7
witness. -/
def c7BadHandler : PbScoreSheet → Except StoreError PbScoreSheet :=
  fun _ => Except.error (StoreError.handlerFailed "bad")

/-- Witness for C7: updating an absent id surfaces the wrapped not-found
error with the store unchanged, and a failing mutator on an existing
sheet surfaces its error verbatim with the store unchanged. -/
theorem C7_update_not_found_and_mutator_witness :
    UpdateScoreSheet c10Store 7 c10Handler =
      (c10Store, Except.error (StoreError.fetchWrapped .sqlNoRows)) ∧
    UpdateScoreSheet c6Store 1 c7BadHandler =
      (c6Store, Except.error (StoreError.handlerFailed "bad")) := by
  have h1 := C7_update_not_found_and_mutator c10Store 7 c10Handler
  have h2 := C7_update_not_found_and_mutator c6Store 1 c7BadHandler
  exact ⟨h1.1 (by decide), h2.2.1 (compositeSheet c6Row (sectionsQueryRows c6Store 1))
    (StoreError.handlerFailed "bad") rfl rfl⟩

/-- Team used by the C2 witness. -/
def c2Team : PbTeam :=
  { id := "team-a", name := "Team A", institutionId := "i",
    institutionName := "School", division := "d" }

/-- Round averages of the worked scenario in the specification:
interview 80, round 1 = 70, round 2 = 90, final round 3 = 85. -/
def c2ScoreList : List RoundAverage :=
  [{ round := 0, average := 80, count := 1 }, { round := 1, average := 70, count := 1 },
   { round := 2, average := 90, count := 1 }, { round := 3, average := 85, count := 1 }]

/-- Witness for C2 at the specification's worked scenario with
`competition_rounds = 2`. -/
theorem C2_ladder_derived_fields_witness :
    (0 : Int) ≤ 2 ∧ (∀ s ∈ c2ScoreList, 0 ≤ s.round) ∧ (∀ s ∈ c2ScoreList, 0 ≤ s.average) ∧
    (mkLadderEntry 2 c2Team c2ScoreList).interviewScore =
      ((c2ScoreList.filter (fun s => s.round == 0)).map (fun s => s.average)).sum ∧
    (mkLadderEntry 2 c2Team c2ScoreList).roundTotal =
      (mkLadderEntry 2 c2Team c2ScoreList).interviewScore +
        (mkLadderEntry 2 c2Team c2ScoreList).bestRound := by
  have h := C2_ladder_derived_fields 2 c2Team c2ScoreList (by decide) (by decide) (by decide)
  exact ⟨by decide, by decide, by decide, h.1, h.2.2.2.2.2.1⟩

/-- The joined teams-query row of team `t1` in the `tieDbA` store. -/
def tieLadderRow1 : LadderTeamRow :=
  { id := "t1", name := "A", institutionId := "i", institution := "School",
    divisionId := "d", division := "Dance", competitionRounds := 2, finalRounds := 1 }

/-- Witness for C9 on the two-team store: both boolean arguments agree,
and the division of a joined team row appears in the output. -/
theorem C9_showAll_insensitive_witness :
    FetchDanceLadders tieDbA true = FetchDanceLadders tieDbA false ∧
    ∃ dl ∈ FetchDanceLadders tieDbA false, dl.divisionId = "d" := by
  have h := C9_showAll_insensitive
  refine ⟨h.1 tieDbA true false, ?_⟩
  have ht : tieLadderRow1 ∈ ladderTeamRows tieDbA := by decide
  exact h.2 tieDbA false tieLadderRow1 ht

end RcjGo
